import Mathlib

/-!
Verification development for the kiro-claude-proxy protocol bridge.

This file gives a shallow embedding of the repository's streaming core:

* `src/kiro/aws-event-stream.js` — the AWS binary event-stream frame
  decoder (`parseEventMessage`), the one-shot buffer parser
  (`parseEventStream`) and the incremental chunked parser
  (`parseEventStreamAsync`);
* `src/kiro/streaming-handler.js` — the translator from decoded upstream
  payloads to Anthropic SSE events (`convertKiroEventToAnthropic`) and the
  stream orchestrator (`streamKiroResponse`).

JavaScript values decoded from JSON payloads are modelled by the inductive
type `Json` (numbers as exact rationals: the claims under verification never
perform float arithmetic, so IEEE-754 rounding is irrelevant here).
JavaScript `undefined` is modelled as `Option.none` on field access, while
the JavaScript value `null` is `Json.null`.  Byte buffers are `List Nat`
(each entry a byte).  Loops of the source that are not structurally
terminating are modelled with explicit fuel; fuel exhaustion (`Option.none`
results) models a loop that is still running.
-/

namespace KiroProxy

/-- A JSON value as produced by `JSON.parse`.  Object fields keep insertion
order.  A number is kept as the exact decimal `m · 10 ^ e` read from the
source text (JavaScript stores an IEEE-754 double; none of the verified
claims performs float arithmetic, and the only numeric operation the
source applies to payload numbers is a zero test, which agrees with the
exact value). -/
inductive Json where
  | null : Json
  | bool (b : Bool) : Json
  | num (m : Int) (e : Int) : Json
  | str (s : String) : Json
  | arr (elems : List Json) : Json
  | obj (fields : List (String × Json)) : Json
  deriving Repr

/-- JavaScript truthiness of a (non-`undefined`) value: `null`, `false`,
`0` (also `-0` and `0.0`) and the empty string are falsy; every object and
array is truthy. -/
def jsTruthy : Json → Bool
  | .null => false
  | .bool b => b
  | .num m _ => decide (m ≠ 0)
  | .str s => decide (s ≠ "")
  | .arr _ => true
  | .obj _ => true

/-- The number zero. -/
def jsZero : Json := .num 0 0

/-- First binding of a key in an association list (JSON parsing below keeps
keys unique, mirroring JavaScript object semantics). -/
def lookupField : List (String × Json) → String → Option Json
  | [], _ => none
  | (k, v) :: rest, key => if k = key then some v else lookupField rest key

/-- JavaScript property access `v.key`: `undefined` (`none`) on any
non-object value or absent key.  (In the translator this is only applied to
non-`null` values; access on `null` is modelled as a crash at its call
site.) -/
def getField : Json → String → Option Json
  | .obj fields, key => lookupField fields key
  | _, _ => none

/-- JavaScript `a || b` over possibly-`undefined` values: the left operand
if it is defined and truthy, otherwise the right operand. -/
def jsOr (a b : Option Json) : Option Json :=
  match a with
  | some v => if jsTruthy v then some v else b
  | none => b

/-- JavaScript `a || b` with a defined right operand. -/
def jsOrJ (a : Option Json) (b : Json) : Json :=
  match a with
  | some v => if jsTruthy v then v else b
  | none => b

/-- `if (x)`-style guard on a possibly-`undefined` value: keeps the value
exactly when it is defined and truthy. -/
def jsTruthyOpt (a : Option Json) : Option Json :=
  match a with
  | some v => if jsTruthy v then some v else none
  | none => none

/-! ### UTF-8 decoding (`new TextDecoder().decode`)

WHATWG UTF-8 decoding with U+FFFD replacement on malformed input
(maximal-subpart resynchronisation).  Fuel-structural so that concrete
runs reduce inside the kernel; one byte is consumed per step, so fuel
equal to the byte count suffices. -/

/-- The replacement character U+FFFD. -/
def replChar : Char := Char.ofNat 0xFFFD

/-- Is `b` a UTF-8 continuation byte (0x80–0xBF)? -/
def isCont (b : Nat) : Bool := decide (0x80 ≤ b ∧ b ≤ 0xBF)

/-- Allowed range of the first continuation byte of a three-byte sequence
(narrowed for lead bytes 0xE0 and 0xED to exclude overlong encodings and
surrogates). -/
def cont3Ok (lead b : Nat) : Bool :=
  if lead = 0xE0 then decide (0xA0 ≤ b ∧ b ≤ 0xBF)
  else if lead = 0xED then decide (0x80 ≤ b ∧ b ≤ 0x9F)
  else isCont b

/-- Allowed range of the first continuation byte of a four-byte sequence
(narrowed for lead bytes 0xF0 and 0xF4). -/
def cont4Ok (lead b : Nat) : Bool :=
  if lead = 0xF0 then decide (0x90 ≤ b ∧ b ≤ 0xBF)
  else if lead = 0xF4 then decide (0x80 ≤ b ∧ b ≤ 0x8F)
  else isCont b

/-- One pass of WHATWG UTF-8 decoding. -/
def utf8Go : Nat → List Nat → List Char
  | 0, _ => []
  | _, [] => []
  | fuel+1, b :: rest =>
    if b < 0x80 then Char.ofNat b :: utf8Go fuel rest
    else if 0xC2 ≤ b ∧ b ≤ 0xDF then
      match rest with
      | [] => [replChar]
      | b2 :: rest2 =>
        if isCont b2 then
          Char.ofNat ((b - 0xC0) * 0x40 + (b2 - 0x80)) :: utf8Go fuel rest2
        else replChar :: utf8Go fuel rest
    else if 0xE0 ≤ b ∧ b ≤ 0xEF then
      match rest with
      | [] => [replChar]
      | b2 :: rest2 =>
        if cont3Ok b b2 then
          match rest2 with
          | [] => [replChar]
          | b3 :: rest3 =>
            if isCont b3 then
              Char.ofNat ((b - 0xE0) * 0x1000 + (b2 - 0x80) * 0x40 + (b3 - 0x80)) ::
                utf8Go fuel rest3
            else replChar :: utf8Go fuel rest2
        else replChar :: utf8Go fuel rest
    else if 0xF0 ≤ b ∧ b ≤ 0xF4 then
      match rest with
      | [] => [replChar]
      | b2 :: rest2 =>
        if cont4Ok b b2 then
          match rest2 with
          | [] => [replChar]
          | b3 :: rest3 =>
            if isCont b3 then
              match rest3 with
              | [] => [replChar]
              | b4 :: rest4 =>
                if isCont b4 then
                  Char.ofNat
                    ((b - 0xF0) * 0x40000 + (b2 - 0x80) * 0x1000 +
                      (b3 - 0x80) * 0x40 + (b4 - 0x80)) :: utf8Go fuel rest4
                else replChar :: utf8Go fuel rest3
            else replChar :: utf8Go fuel rest2
        else replChar :: utf8Go fuel rest
    else replChar :: utf8Go fuel rest

/-- Decode a byte sequence as UTF-8 text, replacing malformed sequences by
U+FFFD, as `new TextDecoder().decode()` does. -/
def utf8Decode (bytes : List Nat) : String :=
  ⟨utf8Go bytes.length bytes⟩

example : utf8Decode [110, 117, 108, 108] = "null" := rfl
example : utf8Decode [0xC3, 0xA9] = "é" := rfl
example : utf8Decode [0xFF, 65] = ⟨[replChar, 'A']⟩ := rfl

/-! ### JSON parsing (`JSON.parse`)

A recursive-descent parser for the JSON grammar (ECMA-404, the grammar
accepted by `JSON.parse`): a parse error yields `none`.  Lone surrogate
escapes — which JavaScript strings can hold but Unicode scalar values
cannot — are mapped to U+FFFD; numbers are read as exact decimal
rationals.  The parser is fuel-structural; every recursive call follows
the consumption of at least one input character, so fuel `2·length + 4`
bounds every call chain. -/

/-- The character 0x7B (opening curly bracket). -/
def lbrace : Char := Char.ofNat 0x7B

/-- The character 0x7D (closing curly bracket). -/
def rbrace : Char := Char.ofNat 0x7D

/-- Skip JSON whitespace (space, tab, line feed, carriage return). -/
def skipWs : List Char → List Char
  | [] => []
  | c :: rest =>
    if c = ' ' ∨ c = '\t' ∨ c = '\n' ∨ c = '\r' then skipWs rest else c :: rest

/-- Is `c` an ASCII decimal digit? -/
def isDigitCh (c : Char) : Bool := decide ('0' ≤ c ∧ c ≤ '9')

/-- Split a maximal run of leading digits from the input. -/
def takeDigits : List Char → List Char × List Char
  | [] => ([], [])
  | c :: rest =>
    if isDigitCh c then
      let (ds, r) := takeDigits rest
      (c :: ds, r)
    else ([], c :: rest)

/-- Numeric value of a digit run. -/
def digitsToNat (ds : List Char) : Nat :=
  ds.foldl (fun acc c => acc * 10 + (c.toNat - 48)) 0

/-- Parse a JSON number (grammar `-?(0|[1-9][0-9]*)(.[0-9]+)?([eE][+-]?[0-9]+)?`)
into the exact decimal `m · 10 ^ e` given by its digits. -/
def parseNumber (cs : List Char) : Option (Int × Int × List Char) :=
  let (neg, cs1) :=
    match cs with
    | '-' :: rest => (true, rest)
    | _ => (false, cs)
  match cs1 with
  | [] => none
  | c :: rest =>
    if ¬ isDigitCh c then none
    else
      -- integer part: a leading 0 must stand alone
      let (intDs, cs2) :=
        if c = '0' then ([c], rest)
        else takeDigits (c :: rest)
      -- fraction part
      let fracStep : Option (List Char × List Char) :=
        match cs2 with
        | '.' :: r =>
          let (fds, r2) := takeDigits r
          if fds.isEmpty then none else some (fds, r2)
        | _ => some ([], cs2)
      match fracStep with
      | none => none
      | some (fracDs, cs3) =>
        -- exponent part
        let expStep : Option (Int × List Char) :=
          match cs3 with
          | 'e' :: r | 'E' :: r =>
            let (esign, r1) :=
              match r with
              | '+' :: rr => ((1 : Int), rr)
              | '-' :: rr => ((-1 : Int), rr)
              | _ => ((1 : Int), r)
            let (eds, r2) := takeDigits r1
            if eds.isEmpty then none else some (esign * digitsToNat eds, r2)
          | _ => some (0, cs3)
        match expStep with
        | none => none
        | some (expVal, cs4) =>
          let mag : Int := digitsToNat (intDs ++ fracDs)
          some (if neg then -mag else mag, expVal - fracDs.length, cs4)

/-- Value of a hexadecimal digit. -/
def hexVal (c : Char) : Option Nat :=
  if '0' ≤ c ∧ c ≤ '9' then some (c.toNat - 48)
  else if 'a' ≤ c ∧ c ≤ 'f' then some (c.toNat - 87)
  else if 'A' ≤ c ∧ c ≤ 'F' then some (c.toNat - 55)
  else none

/-- Read exactly four hexadecimal digits. -/
def hex4 : List Char → Option (Nat × List Char)
  | a :: b :: c :: d :: rest =>
    match hexVal a, hexVal b, hexVal c, hexVal d with
    | some x, some y, some z, some w => some (x * 0x1000 + y * 0x100 + z * 0x10 + w, rest)
    | _, _, _, _ => none
  | _ => none

/-- Parse the body of a JSON string after the opening quote, returning its
characters and the input following the closing quote.  Escape sequences
follow `JSON.parse`; a `\u` escape encoding a surrogate pair yields the
combined scalar value, while a lone surrogate (legal in JavaScript
strings, unrepresentable as a Unicode scalar value) becomes U+FFFD. -/
def parseStringBody : Nat → List Char → Option (List Char × List Char)
  | 0, _ => none
  | _, [] => none
  | fuel+1, c :: rest =>
    if c = '"' then some ([], rest)
    else if c = '\\' then
      match rest with
      | [] => none
      | e :: rest2 =>
        let simpleEsc : Option Char :=
          if e = '"' then some '"'
          else if e = '\\' then some '\\'
          else if e = '/' then some '/'
          else if e = 'b' then some (Char.ofNat 8)
          else if e = 'f' then some (Char.ofNat 12)
          else if e = 'n' then some '\n'
          else if e = 'r' then some (Char.ofNat 13)
          else if e = 't' then some '\t'
          else none
        match simpleEsc with
        | some ch =>
          match parseStringBody fuel rest2 with
          | some (body, r) => some (ch :: body, r)
          | none => none
        | none =>
          if e = 'u' then
            match hex4 rest2 with
            | none => none
            | some (n, rest3) =>
              if 0xD800 ≤ n ∧ n ≤ 0xDBFF then
                -- high surrogate: try to pair with an immediately following \u escape
                match rest3 with
                | '\\' :: 'u' :: tail =>
                  match hex4 tail with
                  | some (m, rest4) =>
                    if 0xDC00 ≤ m ∧ m ≤ 0xDFFF then
                      match parseStringBody fuel rest4 with
                      | some (body, r) =>
                        some (Char.ofNat (0x10000 + (n - 0xD800) * 0x400 + (m - 0xDC00)) :: body, r)
                      | none => none
                    else
                      match parseStringBody fuel rest3 with
                      | some (body, r) => some (replChar :: body, r)
                      | none => none
                  | none =>
                    match parseStringBody fuel rest3 with
                    | some (body, r) => some (replChar :: body, r)
                    | none => none
                | _ =>
                  match parseStringBody fuel rest3 with
                  | some (body, r) => some (replChar :: body, r)
                  | none => none
              else if 0xDC00 ≤ n ∧ n ≤ 0xDFFF then
                match parseStringBody fuel rest3 with
                | some (body, r) => some (replChar :: body, r)
                | none => none
              else
                match parseStringBody fuel rest3 with
                | some (body, r) => some (Char.ofNat n :: body, r)
                | none => none
          else none
    else if c.toNat < 0x20 then none
    else
      match parseStringBody fuel rest with
      | some (body, r) => some (c :: body, r)
      | none => none

/-- Set a key in an object under construction: a duplicate key keeps its
original position but takes the later value, as in a JavaScript object
literal built by `JSON.parse`. -/
def setKey : List (String × Json) → String → Json → List (String × Json)
  | [], key, v => [(key, v)]
  | (k, w) :: rest, key, v =>
    if k = key then (k, v) :: rest else (k, w) :: setKey rest key v

/-- Parser continuations: a full value, the element loop of an array, or
the member loop of an object. -/
inductive PMode where
  | value : PMode
  | elems (acc : List Json) : PMode
  | members (acc : List (String × Json)) : PMode

/-- The recursive-descent core of `JSON.parse`. -/
def parseCore : Nat → PMode → List Char → Option (Json × List Char)
  | 0, _, _ => none
  | fuel+1, .value, cs =>
    match skipWs cs with
    | [] => none
    | c :: rest =>
      if c = 'n' then
        match rest with
        | 'u' :: 'l' :: 'l' :: r => some (.null, r)
        | _ => none
      else if c = 't' then
        match rest with
        | 'r' :: 'u' :: 'e' :: r => some (.bool true, r)
        | _ => none
      else if c = 'f' then
        match rest with
        | 'a' :: 'l' :: 's' :: 'e' :: r => some (.bool false, r)
        | _ => none
      else if c = '"' then
        match parseStringBody (rest.length + 1) rest with
        | some (body, r) => some (.str ⟨body⟩, r)
        | none => none
      else if c = '[' then
        match skipWs rest with
        | ']' :: r => some (.arr [], r)
        | r => parseCore fuel (.elems []) r
      else if c = lbrace then
        match skipWs rest with
        | d :: r => if d = rbrace then some (.obj [], r) else parseCore fuel (.members []) (d :: r)
        | [] => none
      else if c = '-' ∨ isDigitCh c then
        match parseNumber (c :: rest) with
        | some (m, e, r) => some (.num m e, r)
        | none => none
      else none
  | fuel+1, .elems acc, cs =>
    match parseCore fuel .value cs with
    | none => none
    | some (v, rest) =>
      match skipWs rest with
      | ',' :: r => parseCore fuel (.elems (v :: acc)) r
      | ']' :: r => some (.arr (v :: acc).reverse, r)
      | _ => none
  | fuel+1, .members acc, cs =>
    match skipWs cs with
    | '"' :: rest =>
      match parseStringBody (rest.length + 1) rest with
      | none => none
      | some (key, r1) =>
        match skipWs r1 with
        | ':' :: r2 =>
          match parseCore fuel .value r2 with
          | none => none
          | some (v, r3) =>
            let acc' := setKey acc ⟨key⟩ v
            match skipWs r3 with
            | ',' :: r4 => parseCore fuel (.members acc') r4
            | d :: r4 => if d = rbrace then some (.obj acc', r4) else none
            | [] => none
        | _ => none
    | _ => none

/-- `JSON.parse`: `none` models a thrown `SyntaxError`. -/
def jsonParse (s : String) : Option Json :=
  match parseCore (2 * s.data.length + 4) .value s.data with
  | some (v, rest) => if (skipWs rest).isEmpty then some v else none
  | none => none

example : jsonParse "null" = some .null := rfl
example : jsonParse "hello" = none := rfl
example : jsonParse " [1, true, \"a\"] " =
    some (.arr [.num 1 0, .bool true, .str "a"]) := rfl
example : jsonParse "\x7b\"a\":1,\"b\":\x7b\x7d\x7d" =
    some (.obj [("a", .num 1 0), ("b", .obj [])]) := rfl
example : jsonParse "0.5" = some (.num 5 (-1)) := rfl
example : jsonParse "-1.25e2" = some (.num (-125) 0) := rfl
example : jsonParse "01" = none := rfl
example : jsonParse "" = none := rfl

/-! ### JSON serialisation (`JSON.stringify`)

Compact serialisation (no spacing argument), as the translator uses it on
tool-invocation input.  Integers and short decimals print as JavaScript
prints them; the exponential notation JavaScript switches to for
magnitudes ≥ 1e21 or < 1e-7 is not reproduced (no verified claim inspects
the serialisation of such numbers). -/

/-- A hexadecimal digit character (lowercase, as JavaScript prints). -/
def hexDigitCh (n : Nat) : Char :=
  Char.ofNat (if n < 10 then 48 + n else 87 + n)

/-- Escape one character as inside a `JSON.stringify` string literal. -/
def escapeJChar (c : Char) : String :=
  if c = '"' then "\\\""
  else if c = '\\' then "\\\\"
  else if c.toNat = 8 then "\\b"
  else if c.toNat = 9 then "\\t"
  else if c.toNat = 10 then "\\n"
  else if c.toNat = 12 then "\\f"
  else if c.toNat = 13 then "\\r"
  else if c.toNat < 0x20 then
    "\\u00" ++ String.mk [hexDigitCh (c.toNat / 16), hexDigitCh (c.toNat % 16)]
  else String.singleton c

/-- Serialise a string with quotes and escapes. -/
def quoteJString (s : String) : String :=
  "\"" ++ String.join (s.data.map escapeJChar) ++ "\""

/-- Move trailing decimal zeros of the mantissa into the exponent (so that
`1.50` prints as `1.5`, as JavaScript's canonical double printing does). -/
def stripZeros : Nat → Nat → Int → Nat × Int
  | 0, n, e => (n, e)
  | fuel+1, n, e =>
    if e < 0 ∧ n ≠ 0 ∧ n % 10 = 0 then stripZeros fuel (n / 10) (e + 1)
    else (n, e)

/-- Print the decimal `m · 10 ^ e` the way JavaScript prints the number
(for the non-exponential range). -/
def numToString (m e : Int) : String :=
  if m = 0 then "0"
  else
    let sign := if m < 0 then "-" else ""
    let (n, e') := stripZeros m.natAbs m.natAbs e
    let ds := Nat.repr n
    if 0 ≤ e' then sign ++ ds ++ String.mk (List.replicate e'.toNat '0')
    else
      let k := (-e').toNat
      if k < ds.length then
        sign ++ String.mk (ds.data.take (ds.length - k)) ++ "." ++
          String.mk (ds.data.drop (ds.length - k))
      else sign ++ "0." ++ String.mk (List.replicate (k - ds.length) '0') ++ ds

mutual

/-- `JSON.stringify(v)` (compact form). -/
def jsonStringify : Json → String
  | .null => "null"
  | .bool true => "true"
  | .bool false => "false"
  | .num m e => numToString m e
  | .str s => quoteJString s
  | .arr xs => "[" ++ String.intercalate "," (stringifyElems xs) ++ "]"
  | .obj fs =>
    String.singleton lbrace ++ String.intercalate "," (stringifyMembers fs) ++
      String.singleton rbrace

/-- Serialised array elements, in order. -/
def stringifyElems : List Json → List String
  | [] => []
  | x :: r => jsonStringify x :: stringifyElems r

/-- Serialised object members, in insertion order. -/
def stringifyMembers : List (String × Json) → List String
  | [] => []
  | (k, v) :: r => (quoteJString k ++ ":" ++ jsonStringify v) :: stringifyMembers r

end

example : jsonStringify (.obj [("q", .str "x")]) = "\x7b\"q\":\"x\"\x7d" := rfl
example : jsonStringify (.arr [.num 5 (-1), .num (-125) 0, .null]) = "[0.5,-125,null]" := rfl
example : jsonStringify (.num 150 (-2)) = "1.5" := rfl

/-! ### The AWS event-stream frame decoder (`aws-event-stream.js`)

Byte buffers are `List Nat` (one byte per entry).  `Json.null` plays the
role of the JavaScript `null` that `parseEventMessage` stores in `data`
for empty/control frames — the very same value `JSON.parse` yields for a
payload reading `null`, faithfully reproducing the source's conflation of
the two. -/

/-- `DataView.getUint32` (big-endian) at byte offset `off`. -/
def readU32 (buffer : List Nat) (off : Nat) : Nat :=
  (buffer.getD off 0) * 0x1000000 + (buffer.getD (off + 1) 0) * 0x10000 +
    (buffer.getD (off + 2) 0) * 0x100 + buffer.getD (off + 3) 0

/-- Decode the payload bytes of a frame: UTF-8 text, then `JSON.parse`,
falling back to the raw-string wrapper `{raw: payload}` when the parse
throws (source lines 63–71 of the frame parser). -/
def decodePayload (bytes : List Nat) : Json :=
  match jsonParse (utf8Decode bytes) with
  | some data => data
  | none => .obj [("raw", .str (utf8Decode bytes))]

/-- `parseEventMessage(buffer, offset)`: `none` is the source's `null`
return (incomplete frame — fewer than 12 prelude bytes remaining, or the
declared `totalLength` overruns the buffer); otherwise the decoded `data`
(`Json.null` for a non-positive payload length) together with
`nextOffset = offset + totalLength`. -/
def parseEventMessage (buffer : List Nat) (offset : Nat) : Option (Json × Nat) :=
  if buffer.length < offset + 12 then none
  else
    let totalLength := readU32 buffer offset
    let headersLength := readU32 buffer (offset + 4)
    if buffer.length < offset + totalLength then none
    else
      let payloadOffset := offset + 12 + headersLength
      let payloadLength : Int := (totalLength : Int) - headersLength - 16
      if payloadLength ≤ 0 then some (.null, offset + totalLength)
      else
        some (decodePayload ((buffer.drop payloadOffset).take payloadLength.toNat),
          offset + totalLength)

/-- The `while (offset < buffer.byteLength)` loop of `parseEventStream`,
with explicit fuel: `none` models a run that has not finished within
`fuel` iterations (the loop has no other exit than the two modelled ones,
so a result that is `none` for every fuel is a non-terminating run).
Events accumulate in reverse; a frame whose `data` is `null` is skipped
(`result.data !== null`). -/
def parseEventStreamLoop (buffer : List Nat) : Nat → Nat → List Json → Option (List Json)
  | 0, _, _ => none
  | fuel+1, offset, events =>
    if offset < buffer.length then
      match parseEventMessage buffer offset with
      | none => some events.reverse
      | some (data, nextOffset) =>
        parseEventStreamLoop buffer fuel nextOffset
          (match data with
           | .null => events
           | d => d :: events)
    else some events.reverse

/-- `parseEventStream(buffer)` under a fuel budget. -/
def parseEventStream (fuel : Nat) (buffer : List Nat) : Option (List Json) :=
  parseEventStreamLoop buffer fuel 0 []

/-- The inner `while (offset < buffer.length)` loop of
`parseEventStreamAsync` (source lines 123–148), which re-implements the
frame scan over the accumulated buffer and yields every decoded payload of
positive length — including a payload that parsed to `null`, with no
counterpart of the `result.data !== null` filter of `parseEventStream`.
Returns the yielded payloads (in order) and the consumed offset;
`none` models fuel exhaustion. -/
def asyncInnerLoop (buffer : List Nat) : Nat → Nat → List Json → Option (List Json × Nat)
  | 0, _, _ => none
  | fuel+1, offset, out =>
    if offset < buffer.length then
      if buffer.length < offset + 12 then some (out.reverse, offset)
      else
        let totalLength := readU32 buffer offset
        if buffer.length < offset + totalLength then some (out.reverse, offset)
        else
          let headersLength := readU32 buffer (offset + 4)
          let payloadOffset := offset + 12 + headersLength
          let payloadLength : Int := (totalLength : Int) - headersLength - 16
          let out' :=
            if 0 < payloadLength then
              decodePayload ((buffer.drop payloadOffset).take payloadLength.toNat) :: out
            else out
          asyncInnerLoop buffer fuel (offset + totalLength) out'
    else some (out.reverse, offset)

/-- The chunk loop of `parseEventStreamAsync`: each reader chunk is
appended to the retained buffer, the inner scan yields the newly complete
payloads, and only the unconsumed tail is kept.  At `done` the retained
tail is discarded.  `none` models a run whose inner scan never finishes
(fuel exhaustion on a non-advancing frame). -/
def asyncChunkLoop (fuel : Nat) : List (List Nat) → List Nat → List Json → Option (List Json)
  | [], _buffer, out => some out
  | chunk :: chunks, buffer, out =>
    let buffer' := buffer ++ chunk
    match asyncInnerLoop buffer' fuel 0 [] with
    | none => none
    | some (yielded, offset) =>
      asyncChunkLoop fuel chunks (if 0 < offset then buffer'.drop offset else buffer')
        (out ++ yielded)

/-- `parseEventStreamAsync(stream)` applied to the chunk sequence the
reader delivers, under a fuel budget for the inner scan. -/
def parseEventStreamAsync (fuel : Nat) (chunks : List (List Nat)) : Option (List Json) :=
  asyncChunkLoop fuel chunks [] []

/-! ### The event translator (`convertKiroEventToAnthropic`)

The translator dispatches on the shape of the decoded payload by the
source's field-presence checks, first match winning.  Every branch begins
by reading `eventData.content`, which throws a `TypeError` when the
payload is the JavaScript value `null` — modelled by the `crash`
class / the `none` result. -/

/-- The content block opened by a `content_block_start` event: the default
text block (`{type:'text', text:''}`) or a tool-use block
(`{type:'tool_use', id, name, input:{}}`); the constant members are
omitted. -/
inductive ContentBlock where
  | text : ContentBlock
  | toolUse (id : Json) (name : Option Json) : ContentBlock

/-- The delta of a `content_block_delta` event: a text fragment
(`{type:'text_delta', text}` — `text` is whatever truthy value the source
read, hence `Json`) or a serialised tool-input fragment
(`{type:'input_json_delta', partial_json}`). -/
inductive ADelta where
  | textDelta (text : Json) : ADelta
  | inputJsonDelta (pjson : String) : ADelta

/-- An Anthropic SSE event as yielded by the streaming handler.  Constant
members (role, empty content, null stop_sequence, the zero usage inside
`message_start`) are omitted; `messageDelta` keeps the members the
orchestrator's tracking reads: `delta.stop_reason`,
`usage.input_tokens`, `usage.output_tokens` (`none` = member absent). -/
inductive AEvent where
  | messageStart (id : String) (model : String) : AEvent
  | contentBlockStart (index : Nat) (contentBlock : ContentBlock) : AEvent
  | contentBlockDelta (index : Nat) (delta : ADelta) : AEvent
  | contentBlockStop (index : Nat) : AEvent
  | messageDelta (stopReason : Option String) (inputTokens outputTokens : Option Json) : AEvent
  | messageStop : AEvent

/-- Stands for one `toolu_${crypto.randomUUID()...}` synthetic identifier
(the randomness of `crypto.randomUUID` is abstracted to a constant; no
claim compares identifiers). -/
def freshToolUseId : String := "toolu_0123456789abcdefghijklmn"

/-- The translator's dispatch (source lines 227–325), in the source's
check order, first match winning.  `crash` is the `TypeError` thrown by
`eventData.content` on a `null` payload. -/
inductive KiroEventClass where
  | crash : KiroEventClass
  | contentStr (s : String) : KiroEventClass
  | assistantResp (content : Option Json) : KiroEventClass
  | creditUsage : KiroEventClass
  | tokenUsage (u : Json) : KiroEventClass
  | toolUse (tu : Json) : KiroEventClass
  | codeEvt (ce : Json) : KiroEventClass
  | unrecognized : KiroEventClass

/-- Classify a decoded payload exactly as the source's `if` chain does:
`content` present as a string; truthy `assistantResponseEvent` (recording
its truthy-or-not `content`); `usage` and `unit` both present;
truthy `metadataEvent?.tokenUsage || tokenUsage`; truthy
`toolUseEvent || toolUse`; truthy `codeEvent`; otherwise unrecognized. -/
def classifyKiroEvent (e : Json) : KiroEventClass :=
  match e with
  | .null => .crash
  | _ =>
    match getField e "content" with
    | some (.str s) => .contentStr s
    | _ =>
      match jsTruthyOpt (getField e "assistantResponseEvent") with
      | some are => .assistantResp (jsTruthyOpt (getField are "content"))
      | none =>
        if (getField e "usage").isSome ∧ (getField e "unit").isSome then .creditUsage
        else
          match jsTruthyOpt (jsOr ((getField e "metadataEvent").bind
              (fun m => getField m "tokenUsage")) (getField e "tokenUsage")) with
          | some u => .tokenUsage u
          | none =>
            match jsTruthyOpt (jsOr (getField e "toolUseEvent") (getField e "toolUse")) with
            | some tu => .toolUse tu
            | none =>
              match jsTruthyOpt (getField e "codeEvent") with
              | some ce => .codeEvt ce
              | none => .unrecognized

/-- `convertKiroEventToAnthropic(eventData, blockIndex, hasOpenBlock)`:
the translated event list, or `none` for the `TypeError` a `null` payload
raises.  Branches follow the source: a string `content` or a truthy
`assistantResponseEvent.content` or a `codeEvent` yield one text delta at
the current index; a credit/usage payload yields nothing; token-usage
metadata yields a `message_delta` with `inputTokens || 0` and
`outputTokens || 0`; a tool invocation closes the open block, then opens
block `blockIndex + 1` (synthetic id when `toolUseId` is falsy), emits the
JSON-serialised input when truthy, and closes that same block. -/
def convertKiroEventToAnthropic (eventData : Json) (blockIndex : Nat)
    (hasOpenBlock : Bool) : Option (List AEvent) :=
  match classifyKiroEvent eventData with
  | .crash => none
  | .contentStr s => some [.contentBlockDelta blockIndex (.textDelta (.str s))]
  | .assistantResp (some content) => some [.contentBlockDelta blockIndex (.textDelta content)]
  | .assistantResp none => some []
  | .creditUsage => some []
  | .tokenUsage u =>
    some [.messageDelta none (some (jsOrJ (getField u "inputTokens") jsZero))
      (some (jsOrJ (getField u "outputTokens") jsZero))]
  | .toolUse tu =>
    some ((if hasOpenBlock then [.contentBlockStop blockIndex] else []) ++
      [.contentBlockStart (blockIndex + 1)
        (.toolUse (jsOrJ (getField tu "toolUseId") (.str freshToolUseId)) (getField tu "name"))] ++
      (match jsTruthyOpt (getField tu "input") with
       | some inp => [.contentBlockDelta (blockIndex + 1) (.inputJsonDelta (jsonStringify inp))]
       | none => []) ++
      [.contentBlockStop (blockIndex + 1)])
  | .codeEvt ce =>
    some [.contentBlockDelta blockIndex (.textDelta (jsOrJ (getField ce "content") (.str "")))]
  | .unrecognized => some []

/-! ### The stream orchestrator (`streamKiroResponse`)

State of one request's stream.  `contentBlockIndex` mirrors the mutable
`let contentBlockIndex = 0` of the source — which no statement ever
reassigns. -/

structure KState where
  hasStarted : Bool
  hasOpenBlock : Bool
  contentBlockIndex : Nat
  inputTokens : Json
  outputTokens : Json

/-- The orchestrator's start state. -/
def initKState : KState := ⟨false, false, 0, jsZero, jsZero⟩

/-- Per-event bookkeeping of the forwarding loop (source lines 166–184):
a `content_block_start` marks the block open, a `content_block_stop`
marks it closed, and an event carrying `usage` updates the token counts
through `evt.usage.input_tokens || inputTokens` (likewise for output). -/
def trackEvent (st : KState) (e : AEvent) : KState :=
  match e with
  | .contentBlockStart _ _ => ⟨st.hasStarted, true, st.contentBlockIndex, st.inputTokens, st.outputTokens⟩
  | .contentBlockStop _ => ⟨st.hasStarted, false, st.contentBlockIndex, st.inputTokens, st.outputTokens⟩
  | .messageDelta _ it ot => ⟨st.hasStarted, st.hasOpenBlock, st.contentBlockIndex,
      jsOrJ it st.inputTokens, jsOrJ ot st.outputTokens⟩
  | _ => st

/-- The body of `streamKiroResponse`: on the first payload, yield
`message_start` and the text `content_block_start` for the current index
and mark the block open; translate every payload, forwarding and tracking
its events; when the source is exhausted, close a still-open block, then
yield the final `message_delta` (`stop_reason:'end_turn'`, the tracked
`output_tokens`) and `message_stop`.  A translator crash (`null` payload)
ends the generator after the events already yielded, skipping the
epilogue. -/
def streamLoop (messageId requestModel : String) : KState → List Json → List AEvent
  | st, [] =>
    (if st.hasOpenBlock then [.contentBlockStop st.contentBlockIndex] else []) ++
      [.messageDelta (some "end_turn") none (some st.outputTokens), .messageStop]
  | st, event :: rest =>
    let pre : List AEvent :=
      if st.hasStarted then []
      else [.messageStart messageId requestModel, .contentBlockStart st.contentBlockIndex .text]
    let st1 : KState :=
      if st.hasStarted then st
      else ⟨true, true, st.contentBlockIndex, st.inputTokens, st.outputTokens⟩
    match convertKiroEventToAnthropic event st1.contentBlockIndex st1.hasOpenBlock with
    | none => pre
    | some evts =>
      pre ++ evts ++ streamLoop messageId requestModel (evts.foldl trackEvent st1) rest

/-- `streamKiroResponse(response, requestModel)` as a function of the
decoded payloads its inner `for await` loop receives (the random
`msg_…` identifier is a parameter). -/
def streamKiroResponse (messageId requestModel : String) (payloads : List Json) : List AEvent :=
  streamLoop messageId requestModel initKState payloads

example :
    streamKiroResponse "m" "claude" [.obj [("content", .str "Hi")]] =
      [.messageStart "m" "claude", .contentBlockStart 0 .text,
       .contentBlockDelta 0 (.textDelta (.str "Hi")), .contentBlockStop 0,
       .messageDelta (some "end_turn") none (some jsZero), .messageStop] := rfl

/-! ### Concrete inputs used by the theorems below -/

/-- A tool-invocation payload with the given invocation id, name `search`
and structured input `{q: "x"}`. -/
def toolPayload (id : String) : Json :=
  .obj [("toolUseEvent", .obj [("toolUseId", .str id), ("name", .str "search"),
    ("input", .obj [("q", .str "x")])])]

/-- A token-usage metadata payload carrying only `outputTokens = n`. -/
def tokenUsagePayload (n : Int) : Json :=
  .obj [("tokenUsage", .obj [("outputTokens", .num n 0)])]

/-- A 20-byte frame (`totalLength = 20`, `headersLength = 0`) whose 4-byte
payload is the text `null`. -/
def nullPayloadFrame : List Nat :=
  [0, 0, 0, 20, 0, 0, 0, 0, 0, 0, 0, 0] ++ [110, 117, 108, 108] ++ [0, 0, 0, 0]

/-! ### C4 -/

/-- C4: on the payload sequence `{"content":"Hello "}`, `{"content":"world"}`
followed by end of stream, the orchestrator emits exactly `message_start`,
`content_block_start(0, text)`, the two text deltas at index 0,
`content_block_stop(0)`, `message_delta(end_turn)` and `message_stop`,
in this order. -/
theorem C4_hello_world_scenario (messageId requestModel : String) :
    streamKiroResponse messageId requestModel
        [.obj [("content", .str "Hello ")], .obj [("content", .str "world")]] =
      [.messageStart messageId requestModel,
       .contentBlockStart 0 .text,
       .contentBlockDelta 0 (.textDelta (.str "Hello ")),
       .contentBlockDelta 0 (.textDelta (.str "world")),
       .contentBlockStop 0,
       .messageDelta (some "end_turn") none (some jsZero),
       .messageStop] := rfl

/-! ### C2 -/

/-- C2 (failing run): `contentBlockIndex` is never reassigned by the
orchestrator, so two consecutive tool-invocation payloads both produce
their start/delta/stop triple at index `0 + 1 = 1` — the second one does
not get a freshly incremented index 2, and after tracking the first
payload's events the state's `currentBlockIndex` is still 0, not the new
index 1.  (The triple itself — stop-if-open, start at `blockIndex + 1`,
input delta, stop, block closed afterwards — does match the claim.) -/
theorem C2_tool_block_index_reuse (messageId requestModel : String) :
    streamKiroResponse messageId requestModel [toolPayload "t1", toolPayload "t2"] =
      [.messageStart messageId requestModel,
       .contentBlockStart 0 .text,
       .contentBlockStop 0,
       .contentBlockStart 1 (.toolUse (.str "t1") (some (.str "search"))),
       .contentBlockDelta 1 (.inputJsonDelta "\x7b\"q\":\"x\"\x7d"),
       .contentBlockStop 1,
       .contentBlockStart 1 (.toolUse (.str "t2") (some (.str "search"))),
       .contentBlockDelta 1 (.inputJsonDelta "\x7b\"q\":\"x\"\x7d"),
       .contentBlockStop 1,
       .messageDelta (some "end_turn") none (some jsZero),
       .messageStop] ∧
    (((convertKiroEventToAnthropic (toolPayload "t1") 0 true).getD []).foldl trackEvent
        ⟨true, true, 0, jsZero, jsZero⟩).contentBlockIndex = 0 ∧
    (((convertKiroEventToAnthropic (toolPayload "t1") 0 true).getD []).foldl trackEvent
        ⟨true, true, 0, jsZero, jsZero⟩).hasOpenBlock = false := ⟨rfl, rfl, rfl⟩

/-! ### C3 -/

/-- C3 (failing run): a frame whose payload is the JSON text `null`
decodes to the JavaScript value `null`, which the one-shot
`parseEventStream` silently skips (its `result.data !== null` check
conflates the JSON value with the empty-frame sentinel) while the
incremental `parseEventStreamAsync` yields it — so the two parsers
disagree on the same bytes even for the single-chunk split. -/
theorem C3_incremental_null_divergence :
    parseEventStream 2 nullPayloadFrame = some [] ∧
    parseEventStreamAsync 2 [nullPayloadFrame] = some [.null] := ⟨rfl, rfl⟩

/-! ### C9 -/

/-- C9 (failing run): on a 12-byte buffer of zeros the frame's declared
`totalLength` is 0, so `parseEventMessage` reports `nextOffset = offset`
and the `while` loop of `parseEventStream` never advances: for every
fuel budget the run is still unfinished, i.e. the loop does not
terminate. -/
theorem C9_zero_total_length_loops_forever (fuel : Nat) :
    parseEventStream fuel (List.replicate 12 0) = none := by
  have aux : ∀ f events,
      parseEventStreamLoop (List.replicate 12 0) f 0 events = none := by
    intro f
    induction f with
    | zero => intro events; rfl
    | succ n ih =>
      intro events
      have h1 : parseEventMessage (List.replicate 12 0) 0 = some (.null, 0) := rfl
      simp only [parseEventStreamLoop, h1, List.length_replicate]
      norm_num
      exact ih events
  exact aux fuel []

/-! ### C1 (counterexample part) -/

/-- C1 fails as stated: on the empty payload sequence the orchestrator
emits no `message_start` at all (only the final `message_delta` and
`message_stop`), and on the sequence containing the decoded payload
`null` the translator crashes with a `TypeError`, so the emitted sequence
ends without any `message_stop`. -/
theorem C1_counterexample :
    streamKiroResponse "m" "claude" [] =
      [.messageDelta (some "end_turn") none (some jsZero), .messageStop] ∧
    streamKiroResponse "m" "claude" [.null] =
      [.messageStart "m" "claude", .contentBlockStart 0 .text] := ⟨rfl, rfl⟩

/-! ### C5 (counterexample part) -/

/-- C5 fails as stated: tracking uses `output_tokens || outputTokens`, so
an explicit zero count observed after a nonzero one is discarded — after
usage events carrying 5 then 0, the final `message_delta` carries 5,
not the last observed count 0. -/
theorem C5_counterexample :
    streamKiroResponse "m" "claude" [tokenUsagePayload 5, tokenUsagePayload 0] =
      [.messageStart "m" "claude",
       .contentBlockStart 0 .text,
       .messageDelta none (some jsZero) (some (.num 5 0)),
       .messageDelta none (some jsZero) (some jsZero),
       .contentBlockStop 0,
       .messageDelta (some "end_turn") none (some (.num 5 0)),
       .messageStop] := rfl

/-! ### C7 -/

/-- C7: a complete frame whose computed payload length
`totalLength - headersLength - 16` is zero or negative decodes to the
empty payload (`data = null`, not an error), advances to
`offset + totalLength`, and contributes no element to the output of
either `parseEventStream` (whose loop skips `null` data) or the inner
scan of `parseEventStreamAsync` (which only yields positive-length
payloads). -/
theorem C7_empty_frame_skipped (buffer : List Nat) (offset : Nat)
    (h1 : offset + 12 ≤ buffer.length)
    (h2 : offset + readU32 buffer offset ≤ buffer.length)
    (h3 : (readU32 buffer offset : Int) - readU32 buffer (offset + 4) - 16 ≤ 0) :
    parseEventMessage buffer offset = some (.null, offset + readU32 buffer offset) ∧
    (∀ fuel events, parseEventStreamLoop buffer (fuel + 1) offset events =
      parseEventStreamLoop buffer fuel (offset + readU32 buffer offset) events) ∧
    (∀ fuel out, asyncInnerLoop buffer (fuel + 1) offset out =
      asyncInnerLoop buffer fuel (offset + readU32 buffer offset) out) := by
  have hmsg : parseEventMessage buffer offset = some (.null, offset + readU32 buffer offset) := by
    unfold parseEventMessage
    rw [if_neg (by omega), if_neg (by omega), if_pos h3]
  refine ⟨hmsg, ?_, ?_⟩
  · intro fuel events
    have hlt : offset < buffer.length := by omega
    simp only [parseEventStreamLoop, hmsg, if_pos hlt]
  · intro fuel out
    have hlt : offset < buffer.length := by omega
    simp only [asyncInnerLoop]
    rw [if_pos hlt, if_neg (by omega), if_neg (by omega), if_neg (by omega)]

/-- An empty/control frame: `totalLength = 16`, `headersLength = 0`,
payload length 0. -/
def emptyFrame16 : List Nat :=
  [0, 0, 0, 16, 0, 0, 0, 0, 0, 0, 0, 0, 0, 0, 0, 0]

/-- Witness for C7 on the concrete 16-byte control frame. -/
theorem C7_witness :
    parseEventMessage emptyFrame16 0 = some (.null, 0 + readU32 emptyFrame16 0) ∧
    parseEventStreamLoop emptyFrame16 1 0 [] =
      parseEventStreamLoop emptyFrame16 0 (0 + readU32 emptyFrame16 0) [] := by
  have h := C7_empty_frame_skipped emptyFrame16 0 (by decide) (by decide) (by decide)
  exact ⟨h.1, h.2.1 0 []⟩

/-! ### C10 -/

/-- C10: whenever `parseEventMessage` decodes a non-empty payload (the
frame is complete and `totalLength - headersLength - 16 > 0`), the byte
range it reads — `payloadLength` bytes from
`offset + 12 + headersLength` — lies entirely inside the buffer, for
every buffer, offset and u32 field values: the end of the range is
`offset + totalLength - 4`, within `buffer.length` by the completeness
check, and the extracted slice has the full payload length. -/
theorem C10_payload_in_bounds (buffer : List Nat) (offset : Nat)
    (_h1 : offset + 12 ≤ buffer.length)
    (h2 : offset + readU32 buffer offset ≤ buffer.length)
    (h4 : 0 < (readU32 buffer offset : Int) - readU32 buffer (offset + 4) - 16) :
    offset + 12 + readU32 buffer (offset + 4) +
        ((readU32 buffer offset : Int) - readU32 buffer (offset + 4) - 16).toNat ≤
      buffer.length ∧
    ((buffer.drop (offset + 12 + readU32 buffer (offset + 4))).take
        ((readU32 buffer offset : Int) - readU32 buffer (offset + 4) - 16).toNat).length =
      ((readU32 buffer offset : Int) - readU32 buffer (offset + 4) - 16).toNat := by
  have hb : offset + 12 + readU32 buffer (offset + 4) +
      ((readU32 buffer offset : Int) - readU32 buffer (offset + 4) - 16).toNat ≤
      buffer.length := by omega
  refine ⟨hb, ?_⟩
  simp only [List.length_take, List.length_drop]
  omega

/-- A frame with `totalLength = 21`, `headersLength = 0` and the 5-byte
non-JSON payload `hello`. -/
def helloFrame : List Nat :=
  [0, 0, 0, 21, 0, 0, 0, 0, 0, 0, 0, 0] ++ [104, 101, 108, 108, 111] ++ [0, 0, 0, 0]

/-- Witness for C10 on the concrete `hello` frame. -/
theorem C10_witness :
    0 + 12 + readU32 helloFrame (0 + 4) +
        ((readU32 helloFrame 0 : Int) - readU32 helloFrame (0 + 4) - 16).toNat ≤
      helloFrame.length :=
  (C10_payload_in_bounds helloFrame 0 (by decide) (by decide) (by decide)).1

/-! ### C8 -/

/-- C8: a complete frame whose payload bytes decode (as UTF-8) to text
that does not parse as JSON produces the raw-string wrapper
`{raw: text}` rather than an error, and both stream loops simply carry
on at `offset + totalLength` with that payload appended to their
output — subsequent frames are decoded unaffected. -/
theorem C8_raw_string_fallback (buffer : List Nat) (offset : Nat)
    (h1 : offset + 12 ≤ buffer.length)
    (h2 : offset + readU32 buffer offset ≤ buffer.length)
    (h4 : 0 < (readU32 buffer offset : Int) - readU32 buffer (offset + 4) - 16)
    (h5 : jsonParse (utf8Decode ((buffer.drop (offset + 12 + readU32 buffer (offset + 4))).take
      ((readU32 buffer offset : Int) - readU32 buffer (offset + 4) - 16).toNat)) = none) :
    parseEventMessage buffer offset =
      some (.obj [("raw", .str (utf8Decode ((buffer.drop
          (offset + 12 + readU32 buffer (offset + 4))).take
          ((readU32 buffer offset : Int) - readU32 buffer (offset + 4) - 16).toNat)))],
        offset + readU32 buffer offset) ∧
    (∀ fuel events, parseEventStreamLoop buffer (fuel + 1) offset events =
      parseEventStreamLoop buffer fuel (offset + readU32 buffer offset)
        (.obj [("raw", .str (utf8Decode ((buffer.drop
          (offset + 12 + readU32 buffer (offset + 4))).take
          ((readU32 buffer offset : Int) - readU32 buffer (offset + 4) - 16).toNat)))] :: events)) ∧
    (∀ fuel out, asyncInnerLoop buffer (fuel + 1) offset out =
      asyncInnerLoop buffer fuel (offset + readU32 buffer offset)
        (.obj [("raw", .str (utf8Decode ((buffer.drop
          (offset + 12 + readU32 buffer (offset + 4))).take
          ((readU32 buffer offset : Int) - readU32 buffer (offset + 4) - 16).toNat)))] :: out)) := by
  have hdec : decodePayload ((buffer.drop (offset + 12 + readU32 buffer (offset + 4))).take
      ((readU32 buffer offset : Int) - readU32 buffer (offset + 4) - 16).toNat) =
      .obj [("raw", .str (utf8Decode ((buffer.drop
        (offset + 12 + readU32 buffer (offset + 4))).take
        ((readU32 buffer offset : Int) - readU32 buffer (offset + 4) - 16).toNat)))] := by
    unfold decodePayload
    rw [h5]
  have hmsg : parseEventMessage buffer offset =
      some (.obj [("raw", .str (utf8Decode ((buffer.drop
          (offset + 12 + readU32 buffer (offset + 4))).take
          ((readU32 buffer offset : Int) - readU32 buffer (offset + 4) - 16).toNat)))],
        offset + readU32 buffer offset) := by
    unfold parseEventMessage
    rw [if_neg (by omega), if_neg (by omega), if_neg (by omega), hdec]
  refine ⟨hmsg, ?_, ?_⟩
  · intro fuel events
    have hlt : offset < buffer.length := by omega
    simp only [parseEventStreamLoop, hmsg, if_pos hlt]
  · intro fuel out
    have hlt : offset < buffer.length := by omega
    simp only [asyncInnerLoop]
    rw [if_pos hlt, if_neg (by omega), if_neg (by omega), if_pos h4, hdec]

/-- Witness for C8 on the concrete `hello` frame (whose payload is not
JSON): the decoder yields the raw wrapper and the one-shot loop pushes it
and continues. -/
theorem C8_witness :
    parseEventMessage helloFrame 0 =
      some (.obj [("raw", .str (utf8Decode ((helloFrame.drop
          (0 + 12 + readU32 helloFrame (0 + 4))).take
          ((readU32 helloFrame 0 : Int) - readU32 helloFrame (0 + 4) - 16).toNat)))],
        0 + readU32 helloFrame 0) :=
  (C8_raw_string_fallback helloFrame 0 (by decide) (by decide) (by decide) (by rfl)).1

/-! ### C6 -/

/-- C6: `parseEventMessage` reports "incomplete" (`none` — not an error,
not a frame) exactly when fewer than 12 bytes remain from the offset or
`offset` plus the declared big-endian `totalLength` exceeds the buffer
length; and the incremental parser retains a trailing incomplete frame:
if a complete single frame with a positive payload is split into an
incomplete prefix and a remainder, feeding the two chunks decodes the
frame's payload rather than dropping it. -/
theorem C6_incomplete_frame_retained :
    (∀ (buffer : List Nat) (offset : Nat),
      parseEventMessage buffer offset = none ↔
        (buffer.length < offset + 12 ∨ buffer.length < offset + readU32 buffer offset)) ∧
    (∀ (F F1 F2 : List Nat) (p : Json) (fuel : Nat),
      F = F1 ++ F2 →
      parseEventMessage F1 0 = none →
      parseEventMessage F 0 = some (p, F.length) →
      (16 : Int) + readU32 F (0 + 4) < readU32 F 0 →
      parseEventStreamAsync (fuel + 2) [F1, F2] = some [p]) := by
  constructor
  · intro buffer offset
    unfold parseEventMessage
    by_cases hA : buffer.length < offset + 12
    · simp [hA]
    · rw [if_neg hA]
      by_cases hB : buffer.length < offset + readU32 buffer offset
      · simp [hA, hB]
      · rw [if_neg hB]
        by_cases hC : (readU32 buffer offset : Int) - readU32 buffer (offset + 4) - 16 ≤ 0 <;>
          simp [hA, hB, hC]
  · intro F F1 F2 p fuel h1 h2 h3 h4
    -- unwind the hypothesis that the whole buffer holds one complete frame
    unfold parseEventMessage at h3
    by_cases hA : F.length < 0 + 12
    · rw [if_pos hA] at h3; exact absurd h3 (by simp)
    by_cases hB : F.length < 0 + readU32 F 0
    · rw [if_neg hA, if_pos hB] at h3; exact absurd h3 (by simp)
    rw [if_neg hA, if_neg hB,
      if_neg (show ¬ ((readU32 F 0 : Int) - readU32 F (0 + 4) - 16 ≤ 0) by omega),
      Option.some.injEq, Prod.mk.injEq] at h3
    obtain ⟨hp, htl⟩ := h3
    -- first chunk: the incomplete prefix yields nothing and is fully retained
    have hinner1 : asyncInnerLoop F1 (fuel + 2) 0 [] = some ([], 0) := by
      unfold parseEventMessage at h2
      show asyncInnerLoop F1 (fuel + 1 + 1) 0 [] = some ([], 0)
      by_cases hD : F1.length < 0 + 12
      · rcases Nat.eq_zero_or_pos F1.length with hz | hpos
        · unfold asyncInnerLoop
          rw [if_neg (by omega)]
          rfl
        · unfold asyncInnerLoop
          rw [if_pos hpos, if_pos (by omega)]
          rfl
      · rw [if_neg hD] at h2
        by_cases hE : F1.length < 0 + readU32 F1 0
        · unfold asyncInnerLoop
          rw [if_pos (by omega), if_neg (by omega), if_pos (by omega)]
          rfl
        · rw [if_neg hE] at h2
          by_cases hF : (readU32 F1 0 : Int) - readU32 F1 (0 + 4) - 16 ≤ 0 <;>
            simp [hF] at h2
    -- second chunk: the completed frame decodes to p and consumes everything
    have hinner2 : asyncInnerLoop F (fuel + 2) 0 [] = some ([p], F.length) := by
      show asyncInnerLoop F (fuel + 1 + 1) 0 [] = some ([p], F.length)
      unfold asyncInnerLoop
      dsimp only
      rw [if_pos (show 0 < F.length by omega), if_neg hA, if_neg hB,
        if_pos (show (0 : Int) < (readU32 F 0 : Int) - readU32 F (0 + 4) - 16 by omega), hp]
      unfold asyncInnerLoop
      dsimp only
      rw [if_neg (show ¬ 0 + readU32 F 0 < F.length by omega)]
      rw [htl]
      rfl
    -- assemble the chunk loop
    show asyncChunkLoop (fuel + 2) [F1, F2] [] [] = some [p]
    unfold asyncChunkLoop
    dsimp only
    rw [List.nil_append, hinner1]
    unfold asyncChunkLoop
    dsimp only
    rw [if_neg (by omega), ← h1, hinner2]
    unfold asyncChunkLoop
    simp

/-- Witness for C6: the frame with payload `true`, split after its tenth
byte, is reported incomplete on the prefix alone and decoded once the
remaining bytes arrive in the second chunk. -/
theorem C6_witness :
    parseEventMessage [0, 0, 0, 20, 0, 0, 0, 0, 0, 0] 0 = none ∧
    parseEventStreamAsync 2
        [[0, 0, 0, 20, 0, 0, 0, 0, 0, 0], [0, 0, 116, 114, 117, 101, 0, 0, 0, 0]] =
      some [.bool true] := by
  constructor
  · exact (C6_incomplete_frame_retained.1 [0, 0, 0, 20, 0, 0, 0, 0, 0, 0] 0).mpr
      (Or.inl (by decide))
  · exact C6_incomplete_frame_retained.2
      ([0, 0, 0, 20, 0, 0, 0, 0, 0, 0] ++ [0, 0, 116, 114, 117, 101, 0, 0, 0, 0])
      [0, 0, 0, 20, 0, 0, 0, 0, 0, 0] [0, 0, 116, 114, 117, 101, 0, 0, 0, 0]
      (.bool true) 0 rfl (by rfl) (by rfl) (by decide)

/-! ### Event-sequence observations

Specification-side folds over emitted event lists, used to state the
well-formedness and epilogue claims about the orchestrator's output. -/

/-- Whether a block is open after the events, starting from `b` — the
same update the orchestrator's tracking applies to `hasOpenBlock`. -/
def openFold (b : Bool) (events : List AEvent) : Bool :=
  events.foldl (fun o e =>
    match e with
    | .contentBlockStart _ _ => true
    | .contentBlockStop _ => false
    | _ => o) b

/-- The tracked output-token value after the events, starting from `j` —
the `evt.usage.output_tokens || outputTokens` update of the source. -/
def trackOut (j : Json) (events : List AEvent) : Json :=
  events.foldl (fun acc e =>
    match e with
    | .messageDelta _ _ ot => jsOrJ ot acc
    | _ => acc) j

/-- Bracket discipline of block `i` over an event list: a
`content_block_start` at `i` requires the block closed and opens it, a
`content_block_stop` at `i` requires it open and closes it; `none` marks
a violation.  `blockFold i es (some false) = some false` states that the
start/stop events at index `i` alternate properly and leave the block
closed. -/
def blockFold (i : Nat) (events : List AEvent) (acc : Option Bool) : Option Bool :=
  events.foldl (fun a e =>
    match a with
    | none => none
    | some o =>
      match e with
      | .contentBlockStart j _ => if j = i then (if o then none else some true) else some o
      | .contentBlockStop j => if j = i then (if o then some false else none) else some o
      | _ => some o) acc

/-- Is the event a `message_start`? -/
def isMessageStart : AEvent → Bool
  | .messageStart _ _ => true
  | _ => false

/-- Is the event a `message_stop`? -/
def isMessageStop : AEvent → Bool
  | .messageStop => true
  | _ => false

/-- Is the event a `message_delta` with `stop_reason: 'end_turn'`? -/
def isEndTurnDelta : AEvent → Bool
  | .messageDelta (some r) _ _ => decide (r = "end_turn")
  | _ => false

theorem openFold_append (b : Bool) (xs ys : List AEvent) :
    openFold b (xs ++ ys) = openFold (openFold b xs) ys := by
  simp [openFold, List.foldl_append]

theorem trackOut_append (j : Json) (xs ys : List AEvent) :
    trackOut j (xs ++ ys) = trackOut (trackOut j xs) ys := by
  simp [trackOut, List.foldl_append]

theorem blockFold_append (i : Nat) (acc : Option Bool) (xs ys : List AEvent) :
    blockFold i (xs ++ ys) acc = blockFold i ys (blockFold i xs acc) := by
  simp [blockFold, List.foldl_append]

theorem track_hasStarted (evts : List AEvent) (st : KState) :
    (evts.foldl trackEvent st).hasStarted = st.hasStarted := by
  induction evts generalizing st with
  | nil => rfl
  | cons e rest ih =>
    rw [List.foldl_cons, ih]
    cases e <;> rfl

theorem track_contentBlockIndex (evts : List AEvent) (st : KState) :
    (evts.foldl trackEvent st).contentBlockIndex = st.contentBlockIndex := by
  induction evts generalizing st with
  | nil => rfl
  | cons e rest ih =>
    rw [List.foldl_cons, ih]
    cases e <;> rfl

theorem track_hasOpenBlock (evts : List AEvent) (st : KState) :
    (evts.foldl trackEvent st).hasOpenBlock = openFold st.hasOpenBlock evts := by
  induction evts generalizing st with
  | nil => rfl
  | cons e rest ih =>
    rw [List.foldl_cons, ih]
    cases e <;> rfl

theorem track_outputTokens (evts : List AEvent) (st : KState) :
    (evts.foldl trackEvent st).outputTokens = trackOut st.outputTokens evts := by
  induction evts generalizing st with
  | nil => rfl
  | cons e rest ih =>
    rw [List.foldl_cons, ih]
    cases e <;> rfl

/-! ### Shape of the translator's output -/

theorem classify_eq_crash {e : Json} (h : classifyKiroEvent e = .crash) : e = .null := by
  cases e
  case null => rfl
  all_goals
    exfalso
    revert h
    unfold classifyKiroEvent
    dsimp only
    (repeat' split) <;> intro h <;> simp at h

/-- A non-`null` payload never crashes the translator. -/
theorem convert_isSome {e : Json} (he : e ≠ .null) (i : Nat) (o : Bool) :
    ∃ evts, convertKiroEventToAnthropic e i o = some evts := by
  unfold convertKiroEventToAnthropic
  cases hc : classifyKiroEvent e
  case crash => exact absurd (classify_eq_crash hc) he
  case assistantResp c => cases c <;> exact ⟨_, rfl⟩
  all_goals exact ⟨_, rfl⟩

/-- Translator output never contains `message_start`, `message_stop` or
an end-turn `message_delta`. -/
theorem convert_counts {e : Json} {i : Nat} {o : Bool} {evts : List AEvent}
    (h : convertKiroEventToAnthropic e i o = some evts) :
    evts.countP isMessageStart = 0 ∧ evts.countP isMessageStop = 0 ∧
      evts.countP isEndTurnDelta = 0 := by
  unfold convertKiroEventToAnthropic at h
  cases hc : classifyKiroEvent e <;> rw [hc] at h
  case crash => cases h
  case contentStr s =>
    injection h with h; subst h
    simp [isMessageStart, isMessageStop, isEndTurnDelta]
  case assistantResp c =>
    cases c <;> injection h with h <;> subst h <;>
      simp [isMessageStart, isMessageStop, isEndTurnDelta]
  case creditUsage =>
    injection h with h; subst h; simp
  case tokenUsage u =>
    injection h with h; subst h
    simp [isMessageStart, isMessageStop, isEndTurnDelta]
  case toolUse tu =>
    injection h with h; subst h
    cases o <;> cases jsTruthyOpt (getField tu "input") <;>
      simp [isMessageStart, isMessageStop, isEndTurnDelta]
  case codeEvt ce =>
    injection h with h; subst h
    simp [isMessageStart, isMessageStop, isEndTurnDelta]
  case unrecognized =>
    injection h with h; subst h; simp

/-- Bracket discipline of block 0 across one translator step: starting
from the open/closed state the translator was called with, the emitted
events respect the discipline and leave block 0 exactly in the state the
orchestrator's tracking computes. -/
theorem convert_blockFold_zero {e : Json} {o : Bool} {evts : List AEvent}
    (h : convertKiroEventToAnthropic e 0 o = some evts) :
    blockFold 0 evts (some o) = some (openFold o evts) := by
  unfold convertKiroEventToAnthropic at h
  cases hc : classifyKiroEvent e <;> rw [hc] at h
  case crash => cases h
  case contentStr s => injection h with h; subst h; cases o <;> rfl
  case assistantResp c =>
    cases c <;> injection h with h <;> subst h <;> cases o <;> rfl
  case creditUsage => injection h with h; subst h; cases o <;> rfl
  case tokenUsage u => injection h with h; subst h; cases o <;> rfl
  case toolUse tu =>
    injection h with h; subst h
    cases o <;> cases jsTruthyOpt (getField tu "input") <;> rfl
  case codeEvt ce => injection h with h; subst h; cases o <;> rfl
  case unrecognized => injection h with h; subst h; cases o <;> rfl

/-- Bracket discipline of every block other than 0 across one translator
step, starting (and ending) closed. -/
theorem convert_blockFold_pos {e : Json} {o : Bool} {evts : List AEvent} {k : Nat}
    (h : convertKiroEventToAnthropic e 0 o = some evts) (hk : k ≠ 0) :
    blockFold k evts (some false) = some false := by
  unfold convertKiroEventToAnthropic at h
  cases hc : classifyKiroEvent e <;> rw [hc] at h
  case crash => cases h
  case contentStr s => injection h with h; subst h; rfl
  case assistantResp c =>
    cases c <;> injection h with h <;> subst h <;> rfl
  case creditUsage => injection h with h; subst h; rfl
  case tokenUsage u => injection h with h; subst h; rfl
  case toolUse tu =>
    injection h with h; subst h
    by_cases hk1 : k = 1
    · subst hk1
      cases o <;> cases jsTruthyOpt (getField tu "input") <;> rfl
    · have h0 : ¬ (0 = k) := fun hh => hk hh.symm
      have h1 : ¬ (1 = k) := fun hh => hk1 hh.symm
      cases o <;> cases jsTruthyOpt (getField tu "input") <;>
        simp [blockFold, h0, h1]
  case codeEvt ce => injection h with h; subst h; rfl
  case unrecognized => injection h with h; subst h; rfl

/-! ### Orchestrator invariants -/

/-- One unfolding of `streamLoop` on a payload, when the stream has
already started. -/
theorem streamLoop_cons_started (mid mdl : String) (st : KState) (p : Json)
    (rest : List Json) (evts : List AEvent) (hs : st.hasStarted = true)
    (hconv : convertKiroEventToAnthropic p st.contentBlockIndex st.hasOpenBlock = some evts) :
    streamLoop mid mdl st (p :: rest) =
      evts ++ streamLoop mid mdl (evts.foldl trackEvent st) rest := by
  conv_lhs => unfold streamLoop
  dsimp only
  rw [if_pos hs, if_pos hs, hconv]
  simp

/-- One unfolding of `streamLoop` on the first payload: `message_start`
and the initial text `content_block_start` are emitted and the block is
marked open before the translator runs. -/
theorem streamLoop_cons_fresh (mid mdl : String) (st : KState) (p : Json)
    (rest : List Json) (evts : List AEvent) (hs : st.hasStarted = false)
    (hconv : convertKiroEventToAnthropic p st.contentBlockIndex true = some evts) :
    streamLoop mid mdl st (p :: rest) =
      [.messageStart mid mdl, .contentBlockStart st.contentBlockIndex .text] ++ evts ++
        streamLoop mid mdl (evts.foldl trackEvent
          ⟨true, true, st.contentBlockIndex, st.inputTokens, st.outputTokens⟩) rest := by
  conv_lhs => unfold streamLoop
  dsimp only
  rw [if_neg (by simp [hs]), if_neg (by simp [hs])]
  dsimp only
  rw [hconv]

/-- The epilogue `streamLoop` emits at source exhaustion. -/
theorem streamLoop_nil (mid mdl : String) (st : KState) :
    streamLoop mid mdl st [] =
      (if st.hasOpenBlock then [AEvent.contentBlockStop st.contentBlockIndex] else []) ++
        [AEvent.messageDelta (some "end_turn") none (some st.outputTokens),
          AEvent.messageStop] := rfl

/-- Bracket discipline of the full orchestrator run: starting from the
tracked open/closed state of block 0 (all other blocks closed), every
start/stop pair in the emitted sequence alternates correctly at its index
and every block is closed by the end of the stream. -/
theorem streamLoop_bracket (mid mdl : String) (ps : List Json) : ∀ st : KState,
    Json.null ∉ ps → st.contentBlockIndex = 0 →
    (st.hasOpenBlock = true → st.hasStarted = true) →
    ∀ k, blockFold k (streamLoop mid mdl st ps)
      (some (decide (k = 0) && st.hasOpenBlock)) = some false := by
  induction ps with
  | nil =>
    intro st _ hidx _ k
    show blockFold k ((if st.hasOpenBlock then [.contentBlockStop st.contentBlockIndex] else []) ++
      [.messageDelta (some "end_turn") none (some st.outputTokens), .messageStop]) _ = _
    rw [hidx]
    cases ho : st.hasOpenBlock
    · simp [blockFold]
    · by_cases hk : k = 0
      · subst hk; simp [blockFold]
      · have h0 : ¬ ((0 : Nat) = k) := fun hh => hk hh.symm
        simp [blockFold, h0, hk]
  | cons p rest ih =>
    intro st hnull hidx hos k
    have hp : p ≠ Json.null := fun hh => hnull (hh ▸ List.mem_cons_self p rest)
    have hrest : Json.null ∉ rest := fun hh => hnull (List.mem_cons_of_mem p hh)
    by_cases hs : st.hasStarted
    · obtain ⟨evts, hconv⟩ := convert_isSome hp st.contentBlockIndex st.hasOpenBlock
      have hconv0 : convertKiroEventToAnthropic p 0 st.hasOpenBlock = some evts := by
        rw [← hidx]; exact hconv
      rw [streamLoop_cons_started mid mdl st p rest evts hs hconv, blockFold_append]
      have hopen' : (evts.foldl trackEvent st).hasOpenBlock = openFold st.hasOpenBlock evts :=
        track_hasOpenBlock evts st
      have hacc : blockFold k evts (some (decide (k = 0) && st.hasOpenBlock)) =
          some (decide (k = 0) && (evts.foldl trackEvent st).hasOpenBlock) := by
        by_cases hk : k = 0
        · subst hk
          simpa [hopen'] using convert_blockFold_zero hconv0
        · simp only [decide_eq_false hk, Bool.false_and]
          exact convert_blockFold_pos hconv0 hk
      rw [hacc]
      exact ih (evts.foldl trackEvent st) hrest
        (by rw [track_contentBlockIndex, hidx])
        (by rw [track_hasStarted]; intro _; exact hs) k
    · have hs' : st.hasStarted = false := by simpa using hs
      have ho : st.hasOpenBlock = false := by
        cases hho : st.hasOpenBlock
        · rfl
        · exact absurd (hos hho) (by simp [hs'])
      obtain ⟨evts, hconv⟩ := convert_isSome hp st.contentBlockIndex true
      have hconv0 : convertKiroEventToAnthropic p 0 true = some evts := by
        rw [← hidx]; exact hconv
      rw [streamLoop_cons_fresh mid mdl st p rest evts hs' hconv]
      rw [List.append_assoc, blockFold_append, blockFold_append]
      have hpre : blockFold k [.messageStart mid mdl, .contentBlockStart st.contentBlockIndex .text]
          (some (decide (k = 0) && st.hasOpenBlock)) = some (decide (k = 0) && true) := by
        rw [hidx, ho]
        by_cases hk : k = 0
        · subst hk; simp [blockFold]
        · have h0 : ¬ ((0 : Nat) = k) := fun hh => hk hh.symm
          simp [blockFold, h0, hk]
      rw [hpre]
      set stf : KState := ⟨true, true, st.contentBlockIndex, st.inputTokens, st.outputTokens⟩
      have hopen' : (evts.foldl trackEvent stf).hasOpenBlock = openFold true evts :=
        track_hasOpenBlock evts stf
      have hacc : blockFold k evts (some (decide (k = 0) && true)) =
          some (decide (k = 0) && (evts.foldl trackEvent stf).hasOpenBlock) := by
        by_cases hk : k = 0
        · subst hk
          simpa [hopen'] using convert_blockFold_zero hconv0
        · simp only [decide_eq_false hk, Bool.false_and]
          exact convert_blockFold_pos hconv0 hk
      rw [hacc]
      exact ih (evts.foldl trackEvent stf) hrest
        (by rw [track_contentBlockIndex]; exact hidx)
        (by rw [track_hasStarted]; intro _; rfl) k

/-- `message_start` is emitted exactly once on a nonempty payload
sequence of a fresh stream, and never after the stream has started. -/
theorem streamLoop_startCount (mid mdl : String) (ps : List Json) : ∀ st : KState,
    Json.null ∉ ps →
    (streamLoop mid mdl st ps).countP isMessageStart =
      (if st.hasStarted then 0 else if ps.isEmpty then 0 else 1) := by
  induction ps with
  | nil =>
    intro st _
    rw [streamLoop_nil]
    cases st.hasOpenBlock <;> cases st.hasStarted <;>
      simp [isMessageStart, List.countP_cons, List.countP_append]
  | cons p rest ih =>
    intro st hnull
    have hp : p ≠ Json.null := fun hh => hnull (hh ▸ List.mem_cons_self p rest)
    have hrest : Json.null ∉ rest := fun hh => hnull (List.mem_cons_of_mem p hh)
    by_cases hs : st.hasStarted
    · obtain ⟨evts, hconv⟩ := convert_isSome hp st.contentBlockIndex st.hasOpenBlock
      rw [streamLoop_cons_started mid mdl st p rest evts hs hconv, List.countP_append,
        (convert_counts hconv).1, ih (evts.foldl trackEvent st) hrest,
        track_hasStarted, if_pos hs, if_pos hs]
    · have hs' : st.hasStarted = false := by simpa using hs
      obtain ⟨evts, hconv⟩ := convert_isSome hp st.contentBlockIndex true
      rw [streamLoop_cons_fresh mid mdl st p rest evts hs' hconv]
      rw [List.append_assoc, List.countP_append, List.countP_append,
        (convert_counts hconv).1,
        ih (evts.foldl trackEvent ⟨true, true, st.contentBlockIndex, st.inputTokens,
          st.outputTokens⟩) hrest, track_hasStarted]
      simp [hs', isMessageStart]

/-- The orchestrator's output always ends with a single `message_stop`. -/
theorem streamLoop_stopEnd (mid mdl : String) (ps : List Json) : ∀ st : KState,
    Json.null ∉ ps →
    ∃ pre, streamLoop mid mdl st ps = pre ++ [.messageStop] ∧
      pre.countP isMessageStop = 0 := by
  induction ps with
  | nil =>
    intro st _
    refine ⟨(if st.hasOpenBlock then [AEvent.contentBlockStop st.contentBlockIndex] else []) ++
      [AEvent.messageDelta (some "end_turn") none (some st.outputTokens)], ?_, ?_⟩
    · rw [streamLoop_nil]
      simp
    · cases st.hasOpenBlock <;> simp [isMessageStop, List.countP_cons, List.countP_append]
  | cons p rest ih =>
    intro st hnull
    have hp : p ≠ Json.null := fun hh => hnull (hh ▸ List.mem_cons_self p rest)
    have hrest : Json.null ∉ rest := fun hh => hnull (List.mem_cons_of_mem p hh)
    by_cases hs : st.hasStarted
    · obtain ⟨evts, hconv⟩ := convert_isSome hp st.contentBlockIndex st.hasOpenBlock
      obtain ⟨pre, hpre, hcount⟩ := ih (evts.foldl trackEvent st) hrest
      refine ⟨evts ++ pre, ?_, ?_⟩
      · rw [streamLoop_cons_started mid mdl st p rest evts hs hconv, hpre, List.append_assoc]
      · rw [List.countP_append, (convert_counts hconv).2.1, hcount]
    · have hs' : st.hasStarted = false := by simpa using hs
      obtain ⟨evts, hconv⟩ := convert_isSome hp st.contentBlockIndex true
      obtain ⟨pre, hpre, hcount⟩ := ih (evts.foldl trackEvent
        ⟨true, true, st.contentBlockIndex, st.inputTokens, st.outputTokens⟩) hrest
      refine ⟨[.messageStart mid mdl, .contentBlockStart st.contentBlockIndex .text] ++
        evts ++ pre, ?_, ?_⟩
      · rw [streamLoop_cons_fresh mid mdl st p rest evts hs' hconv, hpre]
        simp
      · rw [List.append_assoc, List.countP_append, List.countP_append,
          (convert_counts hconv).2.1, hcount]
        simp [isMessageStop]

/-- The epilogue shape of every completed run: after the translated body,
the orchestrator closes a still-open block at the (never-reassigned)
current index, then emits exactly one end-turn `message_delta` carrying
the tracked output tokens, then exactly one `message_stop`. -/
theorem streamLoop_epilogue (mid mdl : String) (ps : List Json) : ∀ st : KState,
    Json.null ∉ ps →
    ∃ body, streamLoop mid mdl st ps =
      body ++ ((if openFold st.hasOpenBlock body then [.contentBlockStop st.contentBlockIndex]
          else []) ++
        [.messageDelta (some "end_turn") none (some (trackOut st.outputTokens body)),
          .messageStop]) ∧
      body.countP isMessageStop = 0 ∧ body.countP isEndTurnDelta = 0 := by
  induction ps with
  | nil =>
    intro st _
    exact ⟨[], rfl, rfl, rfl⟩
  | cons p rest ih =>
    intro st hnull
    have hp : p ≠ Json.null := fun hh => hnull (hh ▸ List.mem_cons_self p rest)
    have hrest : Json.null ∉ rest := fun hh => hnull (List.mem_cons_of_mem p hh)
    by_cases hs : st.hasStarted
    · obtain ⟨evts, hconv⟩ := convert_isSome hp st.contentBlockIndex st.hasOpenBlock
      obtain ⟨body, hbody, hc1, hc2⟩ := ih (evts.foldl trackEvent st) hrest
      refine ⟨evts ++ body, ?_, ?_, ?_⟩
      · rw [streamLoop_cons_started mid mdl st p rest evts hs hconv, hbody,
          openFold_append, trackOut_append, List.append_assoc]
        rw [track_hasOpenBlock, track_contentBlockIndex, track_outputTokens] at hbody ⊢
      · rw [List.countP_append, (convert_counts hconv).2.1, hc1]
      · rw [List.countP_append, (convert_counts hconv).2.2, hc2]
    · have hs' : st.hasStarted = false := by simpa using hs
      obtain ⟨evts, hconv⟩ := convert_isSome hp st.contentBlockIndex true
      obtain ⟨body, hbody, hc1, hc2⟩ := ih (evts.foldl trackEvent
        ⟨true, true, st.contentBlockIndex, st.inputTokens, st.outputTokens⟩) hrest
      refine ⟨[.messageStart mid mdl, .contentBlockStart st.contentBlockIndex .text] ++
        evts ++ body, ?_, ?_, ?_⟩
      · rw [streamLoop_cons_fresh mid mdl st p rest evts hs' hconv, hbody,
          track_hasOpenBlock, track_contentBlockIndex, track_outputTokens]
        have hof : openFold st.hasOpenBlock
            ([.messageStart mid mdl, .contentBlockStart st.contentBlockIndex .text] ++
              evts ++ body) = openFold (openFold true evts) body := by
          rw [List.append_assoc, openFold_append, openFold_append]
          rfl
        have hto : trackOut st.outputTokens
            ([.messageStart mid mdl, .contentBlockStart st.contentBlockIndex .text] ++
              evts ++ body) = trackOut (trackOut st.outputTokens evts) body := by
          rw [List.append_assoc, trackOut_append, trackOut_append]
          rfl
        rw [hof, hto]
        simp
      · rw [List.append_assoc, List.countP_append, List.countP_append,
          (convert_counts hconv).2.1, hc1]
        simp [isMessageStop]
      · rw [List.append_assoc, List.countP_append, List.countP_append,
          (convert_counts hconv).2.2, hc2]
        simp [isEndTurnDelta]

/-! ### C1 (amended theorem) -/

/-- C1 (amended): for every finite sequence of non-`null` decoded
payloads, the emitted event sequence starts with exactly one
`message_start` when the sequence is nonempty (the empty sequence
produces none — the counterexample — and a `null` payload crashes the
translator mid-stream, truncating the sequence); every
`content_block_start` is matched by exactly one `content_block_stop` at
the same index, all blocks being closed before the stream ends; and the
sequence ends with exactly one `message_stop`. -/
theorem C1_event_sequence_wellformed_amended (mid mdl : String) (ps : List Json)
    (hnull : Json.null ∉ ps) :
    (ps ≠ [] → ∃ rest, streamKiroResponse mid mdl ps = .messageStart mid mdl :: rest) ∧
    (streamKiroResponse mid mdl ps).countP isMessageStart = (if ps.isEmpty then 0 else 1) ∧
    (∀ k, blockFold k (streamKiroResponse mid mdl ps) (some false) = some false) ∧
    (∃ pre, streamKiroResponse mid mdl ps = pre ++ [.messageStop] ∧
      pre.countP isMessageStop = 0) := by
  refine ⟨?_, ?_, ?_, ?_⟩
  · intro hne
    match ps, hnull with
    | p :: rest, hnull =>
      have hp : p ≠ Json.null := fun hh => hnull (hh ▸ List.mem_cons_self p rest)
      obtain ⟨evts, hconv⟩ := convert_isSome hp initKState.contentBlockIndex true
      exact ⟨_, streamLoop_cons_fresh mid mdl initKState p rest evts rfl hconv⟩
  · simpa using streamLoop_startCount mid mdl ps initKState hnull
  · intro k
    simpa [initKState, streamKiroResponse] using
      streamLoop_bracket mid mdl ps initKState hnull rfl (by intro h; cases h) k
  · exact streamLoop_stopEnd mid mdl ps initKState hnull

/-- Witness for the amended C1 on a one-payload stream. -/
theorem C1_witness :
    (streamKiroResponse "msg" "claude" [Json.obj [("content", Json.str "Hi")]]).countP
        isMessageStart = 1 ∧
    (∀ k, blockFold k (streamKiroResponse "msg" "claude"
        [Json.obj [("content", Json.str "Hi")]]) (some false) = some false) ∧
    (∃ pre, streamKiroResponse "msg" "claude" [Json.obj [("content", Json.str "Hi")]] =
      pre ++ [.messageStop] ∧ pre.countP isMessageStop = 0) := by
  have h := C1_event_sequence_wellformed_amended "msg" "claude"
    [Json.obj [("content", Json.str "Hi")]] (by simp)
  exact ⟨h.2.1, h.2.2.1, h.2.2.2⟩

/-! ### C5 (amended theorem) -/

/-- C5 (amended): on source exhaustion (over non-`null` payloads, which
never crash the run), after the translated body the orchestrator emits
`content_block_stop` at the current block index exactly when a block is
still open, then exactly one `message_delta` with `stop_reason
'end_turn'` whose usage carries the tracked output-token value — the
last **truthy** (nonzero) output count observed in a usage-bearing event,
zero being discarded by the `||` update (the counterexample), `0` when
none was observed — then exactly one `message_stop`. -/
theorem C5_exhaustion_epilogue_amended (mid mdl : String) (ps : List Json)
    (hnull : Json.null ∉ ps) :
    ∃ body, streamKiroResponse mid mdl ps =
      body ++ ((if openFold false body then [.contentBlockStop 0] else []) ++
        [.messageDelta (some "end_turn") none (some (trackOut jsZero body)),
          .messageStop]) ∧
      body.countP isMessageStop = 0 ∧ body.countP isEndTurnDelta = 0 :=
  streamLoop_epilogue mid mdl ps initKState hnull

/-- Witness for the amended C5 on a one-payload stream with usage
metadata. -/
theorem C5_witness :
    ∃ body, streamKiroResponse "msg" "claude" [tokenUsagePayload 7] =
      body ++ ((if openFold false body then [.contentBlockStop 0] else []) ++
        [.messageDelta (some "end_turn") none (some (trackOut jsZero body)),
          .messageStop]) ∧
      body.countP isMessageStop = 0 ∧ body.countP isEndTurnDelta = 0 :=
  C5_exhaustion_epilogue_amended "msg" "claude" [tokenUsagePayload 7] (by simp [tokenUsagePayload])

end KiroProxy
